import Mathlib

/-! ExodusVPN/exodus, `src/c/bpf.c` and `src/c/get_rt_table.c`.

A shallow embedding of the packet-capture demo `bpf.c` (namespace `Bpf`) and of the
rounding macros of the route-table walker `get_rt_table.c` (namespace `RtTable`).
From `bpf.c`:

* the filter program assembled in `set_filter` (an array of `struct bpf_insn`),
  together with the instruction semantics of the BSD packet filter machine that
  the kernel applies to it;
* the record walk of `read_packets` over a filled capture buffer;
* the device probe `open_dev`, the link-type check `check_dlt` and the start-up
  sequence of `main`;
* the outer read loop of `read_packets`.
-/

namespace Bpf

/-! ## Filter machine: instruction encoding

`struct bpf_insn`, the macros `BPF_STMT` and `BPF_JUMP` and the opcode bits are those of
the system header `<net/bpf.h>`; `ETHERTYPE_IP` and `IPPROTO_TCP` those of
`<net/ethernet.h>` and `<netinet/in.h>`.  None of these headers is part of the sources.
-/

/-- One octet of a captured frame. -/
abbrev Byte := Fin 256

/-- The C `struct bpf_insn { u_short code; u_char jt; u_char jf; bpf_u_int32 k; }`. -/
structure bpf_insn where
  code : Nat
  jt : Nat
  jf : Nat
  k : Nat
  deriving DecidableEq, Repr

/-- Macro `BPF_STMT(code, k)`: an instruction without branch offsets. -/
def BPF_STMT (code k : Nat) : bpf_insn := ⟨code, 0, 0, k⟩

/-- Macro `BPF_JUMP(code, k, jt, jf)`: an instruction with both branch offsets. -/
def BPF_JUMP (code k jt jf : Nat) : bpf_insn := ⟨code, jt, jf, k⟩

-- instruction classes
def BPF_LD : Nat := 0x00
def BPF_LDX : Nat := 0x01
def BPF_JMP : Nat := 0x05
def BPF_RET : Nat := 0x06
def BPF_MISC : Nat := 0x07
-- load widths
def BPF_W : Nat := 0x00
def BPF_H : Nat := 0x08
def BPF_B : Nat := 0x10
-- addressing modes
def BPF_IMM : Nat := 0x00
def BPF_ABS : Nat := 0x20
def BPF_IND : Nat := 0x40
def BPF_MSH : Nat := 0xa0
-- jump conditions
def BPF_JA : Nat := 0x00
def BPF_JEQ : Nat := 0x10
def BPF_JGT : Nat := 0x20
def BPF_JGE : Nat := 0x30
def BPF_JSET : Nat := 0x40
-- operand sources
def BPF_K : Nat := 0x00
def BPF_A : Nat := 0x10
-- register transfers
def BPF_TAX : Nat := 0x00
def BPF_TXA : Nat := 0x80

/-- Macro `BPF_CLASS(code)`, the low three bits of the opcode. -/
def BPF_CLASS (code : Nat) : Nat := code &&& 0x07

/-- EtherType of IPv4, `ETHERTYPE_IP` of `<net/ethernet.h>`. -/
def ETHERTYPE_IP : Nat := 0x0800

/-- IP protocol number of TCP, `IPPROTO_TCP` of `<netinet/in.h>`. -/
def IPPROTO_TCP : Nat := 6

/-- The C expression `(u_int)-1`. -/
def U_INT_MINUS_ONE : Nat := 2 ^ 32 - 1

/-- The array `insns[]` of `set_filter` ("dump ssh packets only"), entry for entry. -/
def insns : List bpf_insn :=
  [ BPF_STMT (BPF_LD + BPF_H + BPF_ABS) 12,
    BPF_JUMP (BPF_JMP + BPF_JEQ + BPF_K) ETHERTYPE_IP 0 10,
    BPF_STMT (BPF_LD + BPF_B + BPF_ABS) 23,
    BPF_JUMP (BPF_JMP + BPF_JEQ + BPF_K) IPPROTO_TCP 0 8,
    BPF_STMT (BPF_LD + BPF_H + BPF_ABS) 20,
    BPF_JUMP (BPF_JMP + BPF_JSET + BPF_K) 0x1fff 6 0,
    BPF_STMT (BPF_LDX + BPF_B + BPF_MSH) 14,
    BPF_STMT (BPF_LD + BPF_H + BPF_IND) 14,
    BPF_JUMP (BPF_JMP + BPF_JEQ + BPF_K) 22 2 0,
    BPF_STMT (BPF_LD + BPF_H + BPF_IND) 16,
    BPF_JUMP (BPF_JMP + BPF_JEQ + BPF_K) 22 0 1,
    BPF_STMT (BPF_RET + BPF_K) U_INT_MINUS_ONE,
    BPF_STMT (BPF_RET + BPF_K) 0 ]

/-- The value `fcode.bf_len = sizeof(insns) / sizeof(struct bpf_insn)`. -/
def bf_len : Nat := insns.length

/-! ## Filter machine: evaluation

`set_filter` hands the array to the kernel with `BIOCSETF`; the kernel then runs
it on every frame.  That interpreter is not part of the sources.  The definitions
below give the instructions the meaning the spec (§3, §4.2) and bpf(4) give them:
an accumulator `A`, an index register `X`, a program counter that is bumped after
every instruction and moved further by `jt`/`jf`, and a load outside the captured
bytes ending the run with verdict 0.  Scratch memory and the arithmetic class are
not used by `insns` and are left out; their opcodes end a run as `Outcome.bad`.
-/

/-- The byte at offset `k` of the frame (0 outside it). -/
def byteAt (p : List Byte) (k : Nat) : Nat := (p.getD k 0).val

/-- The big-endian 16-bit field at offset `k`, the interpreter's `EXTRACT_SHORT(&p[k])`. -/
def EXTRACT_SHORT (p : List Byte) (k : Nat) : Nat := byteAt p k * 256 + byteAt p (k + 1)

/-- The big-endian 32-bit field at offset `k`, the interpreter's `EXTRACT_LONG(&p[k])`. -/
def EXTRACT_LONG (p : List Byte) (k : Nat) : Nat :=
  byteAt p k * 16777216 + byteAt p (k + 1) * 65536 + byteAt p (k + 2) * 256 + byteAt p (k + 3)

/-- How a run of the filter machine ends. -/
inductive Outcome
  /-- a `BPF_RET` instruction returned the verdict `v` -/
  | ret (v : Nat)
  /-- a load reached outside the captured bytes (the kernel rejects the frame) -/
  | oob
  /-- an opcode outside the modelled set, or the program counter left the program -/
  | bad
  /-- the step budget ran out before the run ended -/
  | more
  deriving DecidableEq, Repr

/-- Effect of one instruction: stop, or continue `skip` instructions past the next one. -/
inductive Effect
  | stop (o : Outcome)
  | next (skip : Nat) (A : Nat) (X : Nat)
  deriving DecidableEq, Repr

/-- Modelled from the spec: the filter interpreter belongs to the kernel and is not part
of the sources.  One instruction: a load of the given width at a fixed (`ABS`) or indexed
(`IND`) offset, the header-length load `MSH` (low nibble of a byte, scaled by 4), a jump
that skips `jt` or `jf` instructions, or a return; in the form of bpf(4), where a load
outside the captured bytes ends the run. -/
def exec (ins : bpf_insn) (p : List Byte) (A X : Nat) : Effect :=
  let buflen := p.length
  if ins.code = BPF_RET + BPF_K then .stop (.ret ins.k)
  else if ins.code = BPF_RET + BPF_A then .stop (.ret A)
  else if ins.code = BPF_LD + BPF_W + BPF_ABS then
    if ins.k > buflen ∨ 4 > buflen - ins.k then .stop .oob
    else .next 0 (EXTRACT_LONG p ins.k) X
  else if ins.code = BPF_LD + BPF_H + BPF_ABS then
    if ins.k > buflen ∨ 2 > buflen - ins.k then .stop .oob
    else .next 0 (EXTRACT_SHORT p ins.k) X
  else if ins.code = BPF_LD + BPF_B + BPF_ABS then
    if ins.k ≥ buflen then .stop .oob
    else .next 0 (byteAt p ins.k) X
  else if ins.code = BPF_LD + BPF_W + BPF_IND then
    let k := (X + ins.k) % 2 ^ 32
    if ins.k > buflen ∨ X > buflen - ins.k ∨ 4 > buflen - k then .stop .oob
    else .next 0 (EXTRACT_LONG p k) X
  else if ins.code = BPF_LD + BPF_H + BPF_IND then
    let k := (X + ins.k) % 2 ^ 32
    if ins.k > buflen ∨ X > buflen - ins.k ∨ 2 > buflen - k then .stop .oob
    else .next 0 (EXTRACT_SHORT p k) X
  else if ins.code = BPF_LD + BPF_B + BPF_IND then
    let k := (X + ins.k) % 2 ^ 32
    if ins.k ≥ buflen ∨ X ≥ buflen - ins.k then .stop .oob
    else .next 0 (byteAt p k) X
  else if ins.code = BPF_LDX + BPF_B + BPF_MSH then
    if ins.k ≥ buflen then .stop .oob
    else .next 0 A ((byteAt p ins.k &&& 0xf) <<< 2)
  else if ins.code = BPF_LD + BPF_IMM then .next 0 ins.k X
  else if ins.code = BPF_LDX + BPF_IMM then .next 0 A ins.k
  else if ins.code = BPF_JMP + BPF_JA then .next ins.k A X
  else if ins.code = BPF_JMP + BPF_JGT + BPF_K then
    .next (if A > ins.k then ins.jt else ins.jf) A X
  else if ins.code = BPF_JMP + BPF_JGE + BPF_K then
    .next (if A ≥ ins.k then ins.jt else ins.jf) A X
  else if ins.code = BPF_JMP + BPF_JEQ + BPF_K then
    .next (if A = ins.k then ins.jt else ins.jf) A X
  else if ins.code = BPF_JMP + BPF_JSET + BPF_K then
    .next (if A &&& ins.k ≠ 0 then ins.jt else ins.jf) A X
  else if ins.code = BPF_MISC + BPF_TAX then .next 0 A A
  else if ins.code = BPF_MISC + BPF_TXA then .next 0 X X
  else .stop .bad

/-- Modelled from the spec: the filter interpreter belongs to the kernel and is not part
of the sources.  Its loop, fetch at `pc`, execute, continue at `pc + 1 + skip`, cut off
after `fuel` instructions.  Returns how the run ended and how many instructions it
executed. -/
def bpf_run (prog : List bpf_insn) (p : List Byte) : Nat → Nat → Nat → Nat → Outcome × Nat
  | 0, _, _, _ => (.more, 0)
  | fuel + 1, pc, A, X =>
    match prog[pc]? with
    | none => (.bad, 0)
    | some ins =>
      match exec ins p A X with
      | .stop o => (o, 1)
      | .next skip A1 X1 =>
        let r := bpf_run prog p fuel (pc + 1 + skip) A1 X1
        (r.1, r.2 + 1)

/-- The verdict the capture facility acts on: the returned value, and 0 (discard)
for a run that ends any other way.  The budget is the program length. -/
def bpf_filter (prog : List bpf_insn) (p : List Byte) : Nat :=
  match (bpf_run prog p prog.length 0 0 0).1 with
  | .ret v => v
  | _ => 0

/-- Every load the program performs on frame `p` stays inside the frame. -/
def loads_in_bounds (prog : List bpf_insn) (p : List Byte) : Prop :=
  (bpf_run prog p prog.length 0 0 0).1 ≠ Outcome.oob

instance (prog : List bpf_insn) (p : List Byte) : Decidable (loads_in_bounds prog p) := by
  unfold loads_in_bounds; infer_instance

/-- Closed form of a run of `insns` on `p`: outcome and number of executed instructions. -/
def ssh_run (p : List Byte) : Outcome × Nat :=
  if p.length < 14 then (.oob, 1)
  else if EXTRACT_SHORT p 12 ≠ 0x0800 then (.ret 0, 3)
  else if p.length < 24 then (.oob, 3)
  else if byteAt p 23 ≠ 6 then (.ret 0, 5)
  else if EXTRACT_SHORT p 20 &&& 0x1fff ≠ 0 then (.ret 0, 7)
  else if p.length < 4 * (byteAt p 14 &&& 0x0f) + 16 then (.oob, 8)
  else if EXTRACT_SHORT p (4 * (byteAt p 14 &&& 0x0f) + 14) = 22 then (.ret (2 ^ 32 - 1), 10)
  else if p.length < 4 * (byteAt p 14 &&& 0x0f) + 18 then (.oob, 10)
  else if EXTRACT_SHORT p (4 * (byteAt p 14 &&& 0x0f) + 16) = 22 then (.ret (2 ^ 32 - 1), 12)
  else (.ret 0, 12)

/-- An instruction of the jump class (`BPF_CLASS(code) == BPF_JMP`). -/
def is_jump (ins : bpf_insn) : Bool := BPF_CLASS ins.code == BPF_JMP

/-- An instruction of the return class (`BPF_CLASS(code) == BPF_RET`). -/
def is_return (ins : bpf_insn) : Bool := BPF_CLASS ins.code == BPF_RET

/-- A 54-byte IPv4/TCP frame, both ports 22, fragment offset 1 (a non-first fragment). -/
def fragment_frame : List Byte :=
  [ 0x02, 0x00, 0x00, 0x00, 0x00, 0x01,  0x02, 0x00, 0x00, 0x00, 0x00, 0x02,  0x08, 0x00,
    0x45, 0x00, 0x00, 0x28,  0x00, 0x00, 0x00, 0x01,  0x40, 0x06, 0x00, 0x00,
    0x0a, 0x00, 0x00, 0x01,  0x0a, 0x00, 0x00, 0x02,
    0x00, 0x16, 0x00, 0x16,  0x00, 0x00, 0x00, 0x00,  0x00, 0x00, 0x00, 0x00,
    0x50, 0x10, 0x20, 0x00,  0x00, 0x00, 0x00, 0x00 ]

/-- A 54-byte unfragmented IPv4/TCP frame from port 50000 to port 22. -/
def ssh_frame : List Byte :=
  [ 0x02, 0x00, 0x00, 0x00, 0x00, 0x01,  0x02, 0x00, 0x00, 0x00, 0x00, 0x02,  0x08, 0x00,
    0x45, 0x00, 0x00, 0x28,  0x00, 0x00, 0x40, 0x00,  0x40, 0x06, 0x00, 0x00,
    0x0a, 0x00, 0x00, 0x01,  0x0a, 0x00, 0x00, 0x02,
    0xc3, 0x50, 0x00, 0x16,  0x00, 0x00, 0x00, 0x00,  0x00, 0x00, 0x00, 0x00,
    0x50, 0x10, 0x20, 0x00,  0x00, 0x00, 0x00, 0x00 ]

/-! ## Record walk of `read_packets`

The inner loop `while (ptr < bpf_buf + read_bytes)` of `read_packets`.  Offsets
are relative to `bpf_buf`.  The buffer is seen the way the loop sees it: for each
offset, the header obtained by the cast `(struct bpf_hdr *)ptr`.
-/

/-- Modelled from the spec: `struct bpf_hdr` is declared in `<net/bpf.h>`, which is not
part of the sources.  Of the spec's FrameHeader (capture_length, header_length, on-wire
length, timestamp) the walk reads two fields: `bh_caplen`, a `bpf_u_int32`, and
`bh_hdrlen`, a `u_short`, on the macOS target the file is built for. -/
structure bpf_hdr where
  bh_caplen : Nat
  bh_hdrlen : Nat
  deriving DecidableEq, Repr

/-- Modelled from the spec: the constant `BPF_ALIGNMENT` of `<net/bpf.h>` is not part of
the sources; the spec fixes the word size at 4. -/
def BPF_ALIGNMENT : Nat := 4

/-- Modelled from the spec: the macro `BPF_WORDALIGN` of `<net/bpf.h>` is not part of the
sources; it is the spec's `round_up_to_word_boundary`, written as the usual
add-then-mask idiom `(x + (BPF_ALIGNMENT-1)) & ~(BPF_ALIGNMENT-1)`: the low bits of
`x + 3` are cleared.  `BPF_ALIGNMENT` being a `sizeof`, the macro works at the width of
`size_t`, where adding 3 to a 32-bit operand does not wrap. -/
def BPF_WORDALIGN (x : Nat) : Nat :=
  (x + (BPF_ALIGNMENT - 1)) - ((x + (BPF_ALIGNMENT - 1)) &&& (BPF_ALIGNMENT - 1))

/-- What one pass of the loop body hands to `printf`: where the record starts
(`bpf_packet`) and where its Ethernet header starts (`eh`), the payload offset. -/
structure FrameRecord where
  bpf_packet : Nat
  eh : Nat
  deriving DecidableEq, Repr

/-- The C expression `bpf_packet->bh_hdrlen + bpf_packet->bh_caplen`: the `u_short` is
promoted and the sum is taken in 32-bit unsigned arithmetic, so it wraps modulo 2^32. -/
def hdr_plus_cap (h : bpf_hdr) : Nat := (h.bh_hdrlen + h.bh_caplen) % 2 ^ 32

/-- One pass of the loop body at cursor `ptr`: the record found there and the next cursor,
`ptr += BPF_WORDALIGN(bpf_packet->bh_hdrlen + bpf_packet->bh_caplen)`. -/
def decode_step (buf : Nat → bpf_hdr) (ptr : Nat) : FrameRecord × Nat :=
  let bpf_packet := buf ptr
  (⟨ptr, ptr + bpf_packet.bh_hdrlen⟩,
   ptr + BPF_WORDALIGN (hdr_plus_cap bpf_packet))

/-- The loop `while (ptr < bpf_buf + read_bytes)`, cut off after `fuel` passes: the
records in the order met and the cursor at exit, or `none` when the loop is still
running after `fuel` passes. -/
def decode_loop (buf : Nat → bpf_hdr) (read_bytes : Nat) :
    Nat → Nat → Option (List FrameRecord × Nat)
  | 0, ptr => if ptr < read_bytes then none else some ([], ptr)
  | fuel + 1, ptr =>
    if ptr < read_bytes then
      match decode_loop buf read_bytes fuel (decode_step buf ptr).2 with
      | none => none
      | some (rs, stop) => some ((decode_step buf ptr).1 :: rs, stop)
    else some ([], ptr)

/-- Bytes a record with header `h` occupies in the buffer. -/
def record_size (h : bpf_hdr) : Nat := BPF_WORDALIGN (h.bh_hdrlen + h.bh_caplen)

/-- Total size of a sequence of records laid out back to back. -/
def total_size (recs : List bpf_hdr) : Nat := (recs.map record_size).sum

/-- The buffer holds the records `recs` back to back starting at offset `base`. -/
def holds_records (buf : Nat → bpf_hdr) : Nat → List bpf_hdr → Prop
  | _, [] => True
  | base, r :: rs => buf base = r ∧ holds_records buf (base + record_size r) rs

/-- A buffer with headers `(caplen 14, hdrlen 18)`, `(60, 18)`, `(1, 18)` at offsets
0, 32 and 112, zero elsewhere. -/
def three_frames : Nat → bpf_hdr := fun off =>
  if off = 0 then ⟨14, 18⟩ else if off = 32 then ⟨60, 18⟩ else if off = 112 then ⟨1, 18⟩
  else ⟨0, 0⟩

/-- A buffer with one header `(caplen 14, hdrlen 18)` at offset 0 and zero elsewhere. -/
def one_frame_then_zero : Nat → bpf_hdr := fun off =>
  if off = 0 then ⟨14, 18⟩ else ⟨0, 0⟩

/-- A buffer in which a header `(caplen 14, hdrlen 18)` is read at every offset. -/
def uniform_buf : Nat → bpf_hdr := fun _ => ⟨14, 18⟩

/-- The cursor after `k` passes of the loop body, the loop guard left aside. -/
def cursor_at (buf : Nat → bpf_hdr) : Nat → Nat
  | 0 => 0
  | k + 1 => (decode_step buf (cursor_at buf k)).2

/-- A buffer in which a header `(caplen 0xffffffff, hdrlen 18)` is read at every offset. -/
def wrap_buf : Nat → bpf_hdr := fun _ => ⟨0xffffffff, 18⟩

/-- A buffer in which a header `(caplen 0xfffffffc, hdrlen 4)` is read at every offset. -/
def wrap_zero_buf : Nat → bpf_hdr := fun _ => ⟨0xfffffffc, 4⟩

/-- A buffer as `memset(bpf_buf, 0, blen)` leaves it. -/
def zero_buf : Nat → bpf_hdr := fun _ => ⟨0, 0⟩

/-! ## Device probe, link-type check and start-up sequence -/

/-- Outcome of a system call: its useful result, or failure (-1) with the `errno` set. -/
inductive SysResult
  | ok (v : Nat)
  | err (errno : Nat)
  deriving DecidableEq, Repr

def ENOENT : Nat := 2
def EBUSY : Nat := 16
def EINVAL : Nat := 22
def ENXIO : Nat := 6

/-- The literal bound of `for (i = 0; i < 255; i++)` in `open_dev`. -/
def scan_ceiling : Nat := 255

/-- The `for` loop of `open_dev` with `remaining` passes left, at unit `i`.
`open_ i` is the outcome of `open("/dev/bpf<i>", O_RDWR)`.  Returns what `open_dev`
returns and the units it tried to open, in order. -/
def open_dev_from (open_ : Nat → SysResult) : Nat → Nat → SysResult × List Nat
  | 0, _ => (.err ENOENT, [])
  | remaining + 1, i =>
    match open_ i with
    | .ok fd => (.ok fd, [i])
    | .err errno =>
      if errno = EBUSY then
        ((open_dev_from open_ remaining (i + 1)).1, i :: (open_dev_from open_ remaining (i + 1)).2)
      else (.err errno, [i])

/-- The function `open_dev`. -/
def open_dev (open_ : Nat → SysResult) : SysResult × List Nat :=
  open_dev_from open_ scan_ceiling 0

/-- Link type of Ethernet, `DLT_EN10MB` of `<net/bpf.h>`. -/
def DLT_EN10MB : Nat := 1

/-- The function `check_dlt`; `gdlt` is the outcome of `ioctl(fd, BIOCGDLT, &dlt)`, the
link type on success. -/
def check_dlt (gdlt : SysResult) : SysResult :=
  match gdlt with
  | .err errno => .err errno
  | .ok dlt => if dlt = DLT_EN10MB then .ok 0 else .err EINVAL

/-- What the process meets during start-up: the argument count and the outcomes of its
system calls. -/
structure Env where
  argc : Nat
  open_ : Nat → SysResult
  setif : SysResult
  hdrcmplt : SysResult
  seesent : SysResult
  immediate : SysResult
  rtimeout : SysResult
  gdlt : SysResult
  setf : SysResult
  gblen : SysResult
  malloc_ok : Bool

/-- The function `set_options`: five `ioctl` calls, the first failure returned. -/
def set_options (env : Env) : SysResult :=
  match env.setif with
  | .err e => .err e
  | .ok _ =>
    match env.hdrcmplt with
    | .err e => .err e
    | .ok _ =>
      match env.seesent with
      | .err e => .err e
      | .ok _ =>
        match env.immediate with
        | .err e => .err e
        | .ok _ =>
          match env.rtimeout with
          | .err e => .err e
          | .ok _ => .ok 0

/-- The return value of `set_filter`: that of `ioctl(fd, BIOCSETF, &fcode)`. -/
def set_filter (env : Env) : SysResult :=
  match env.setf with
  | .err e => .err e
  | .ok _ => .ok 0

/-- The functions `main` calls. -/
inductive Stage
  | open_dev | set_options | check_dlt | set_filter | read_packets
  deriving DecidableEq, Repr

/-- How `main` went: the functions it called, in order, and the stage named in the
`err(EXIT_FAILURE, ...)` that ended the process (`none`: usage exit, or capturing). -/
structure Startup where
  calls : List Stage
  failed : Option Stage
  deriving DecidableEq, Repr

/-- The function `main`. -/
def main (env : Env) : Startup :=
  if env.argc < 2 then ⟨[], none⟩
  else
    match (open_dev env.open_).1 with
    | .err _ => ⟨[.open_dev], some .open_dev⟩
    | .ok _ =>
      match set_options env with
      | .err _ => ⟨[.open_dev, .set_options], some .set_options⟩
      | .ok _ =>
        match check_dlt env.gdlt with
        | .err _ => ⟨[.open_dev, .set_options, .check_dlt], some .check_dlt⟩
        | .ok _ =>
          match set_filter env with
          | .err _ =>
            ⟨[.open_dev, .set_options, .check_dlt, .set_filter], some .set_filter⟩
          | .ok _ =>
            ⟨[.open_dev, .set_options, .check_dlt, .set_filter, .read_packets],
              match env.gblen with
              | .err _ => some .read_packets
              | .ok _ => if env.malloc_ok then none else some .read_packets⟩

/-- A pool in which units 0, 1, 2 are busy and unit 3 opens as descriptor 7. -/
def pool_busy3 : Nat → SysResult := fun i => if i < 3 then .err EBUSY else .ok 7

/-- A pool in which every unit is busy. -/
def pool_all_busy : Nat → SysResult := fun _ => .err EBUSY

/-- A start-up in which every call succeeds and the link type reported is 12 (raw IP). -/
def env_raw_ip : Env :=
  { argc := 2, open_ := fun _ => .ok 3, setif := .ok 0, hdrcmplt := .ok 0, seesent := .ok 0,
    immediate := .ok 0, rtimeout := .ok 0, gdlt := .ok 12, setf := .ok 0, gblen := .ok 4096,
    malloc_ok := true }

/-! ## Read loop of `read_packets` -/

/-- What one `read(fd, bpf_buf, blen)` gives: its return value, `errno` when that is -1,
and the buffer as the call left it. -/
structure ReadResult where
  ret : Int
  errno : Nat
  buf : Nat → bpf_hdr

/-- Where control is inside `read_packets` once the buffer is allocated. -/
inductive Phase
  /-- at the top of `while (1)`, about to issue read number `i` -/
  | reading (i : Nat)
  /-- inside `while (ptr < bpf_buf + read_bytes)` after read number `i`, cursor `ptr` -/
  | walking (i : Nat) (ptr : Nat)
  /-- past `free(bpf_buf); close(fd);` -/
  | released
  deriving DecidableEq, Repr

/-- One move of `read_packets`.  The outer loop is `while (1)` and contains no `break`,
`return` or `goto`: whatever `read` returned, control comes back to its top. -/
def read_step (rd : Nat → ReadResult) : Phase → Phase
  | .reading i => if (rd i).ret > 0 then .walking i 0 else .reading (i + 1)
  | .walking i ptr =>
    if (ptr : Int) < (rd i).ret then .walking i (decode_step (rd i).buf ptr).2
    else .reading (i + 1)
  | .released => .released

/-- The phase reached after `n` moves. -/
def read_run (rd : Nat → ReadResult) : Nat → Phase → Phase
  | 0, ph => ph
  | n + 1, ph => read_run rd n (read_step rd ph)

/-- A device whose interface goes away: the first read fails with `ENXIO`, and so does
every later one. -/
def reads_gone : Nat → ReadResult := fun _ => ⟨-1, ENXIO, zero_buf⟩

end Bpf

/-! ## Route-table walker, `src/c/get_rt_table.c` -/

namespace RtTable

/-- Macro `ROUNDUP(a, size)`, "round up 'a' to next multiple of 'size', which must be a
power of 2": `((a) & ((size)-1)) ? (1 + ((a) | ((size)-1))) : (a)`. -/
def ROUNDUP (a size : Nat) : Nat :=
  if a &&& (size - 1) ≠ 0 then 1 + (a ||| (size - 1)) else a

/-- Macro `NEXT_SA(ap)`, "step to next socket address structure; if sa_len is 0, assume
it is sizeof(u_long)": the new offset of `ap`, whose `sa_len` field reads `sa_len`.
`sizeof_u_long` is the platform's `sizeof (u_long)`. -/
def NEXT_SA (sizeof_u_long : Nat) (ap sa_len : Nat) : Nat :=
  ap + (if sa_len ≠ 0 then ROUNDUP sa_len sizeof_u_long else sizeof_u_long)

end RtTable

namespace Bpf

/-- A run that executed at most 13 instructions and ended at a return or at an
out-of-bounds load. -/
def ends_well (r : Outcome × Nat) : Prop :=
  r.2 ≤ 13 ∧ ((∃ v, r.1 = Outcome.ret v) ∨ r.1 = Outcome.oob)

/-! ## Filter machine: run of `insns` -/

theorem msh_le (b : Nat) : (b &&& 0xf) <<< 2 = 4 * (b &&& 0x0f) := by
  rw [Nat.shiftLeft_eq]; omega

theorem msh_bound (b : Nat) : 4 * (b &&& 0x0f) ≤ 60 := by
  have : b &&& 0x0f ≤ 0x0f := Nat.and_le_right
  omega

theorem insns_get :
    insns[0]? = some ⟨0x28, 0, 0, 12⟩ ∧ insns[1]? = some ⟨0x15, 0, 10, 0x800⟩ ∧
    insns[2]? = some ⟨0x30, 0, 0, 23⟩ ∧ insns[3]? = some ⟨0x15, 0, 8, 6⟩ ∧
    insns[4]? = some ⟨0x28, 0, 0, 20⟩ ∧ insns[5]? = some ⟨0x45, 6, 0, 0x1fff⟩ ∧
    insns[6]? = some ⟨0xb1, 0, 0, 14⟩ ∧ insns[7]? = some ⟨0x48, 0, 0, 14⟩ ∧
    insns[8]? = some ⟨0x15, 2, 0, 22⟩ ∧ insns[9]? = some ⟨0x48, 0, 0, 16⟩ ∧
    insns[10]? = some ⟨0x15, 0, 1, 22⟩ ∧ insns[11]? = some ⟨0x06, 0, 0, 4294967295⟩ ∧
    insns[12]? = some ⟨0x06, 0, 0, 0⟩ := by
  decide

theorem exec_ldh_abs (k : Nat) (p : List Byte) (A X : Nat) :
    exec ⟨0x28, 0, 0, k⟩ p A X =
      if p.length < k + 2 then .stop .oob else .next 0 (EXTRACT_SHORT p k) X := by
  simp only [exec, BPF_RET, BPF_K, BPF_A, BPF_LD, BPF_W, BPF_H, BPF_ABS]
  by_cases h : p.length < k + 2
  · have : k > p.length ∨ 2 > p.length - k := by omega
    simp [h, this]
  · have : ¬ (k > p.length ∨ 2 > p.length - k) := by omega
    simp [h, this]

theorem exec_ldb_abs (k : Nat) (p : List Byte) (A X : Nat) :
    exec ⟨0x30, 0, 0, k⟩ p A X =
      if p.length < k + 1 then .stop .oob else .next 0 (byteAt p k) X := by
  simp only [exec, BPF_RET, BPF_K, BPF_A, BPF_LD, BPF_W, BPF_H, BPF_B, BPF_ABS]
  by_cases h : p.length < k + 1
  · have : k ≥ p.length := by omega
    simp [h, this]
  · have : ¬ (k ≥ p.length) := by omega
    simp [h, this]

theorem exec_ldh_ind (k : Nat) (p : List Byte) (A X : Nat) (hX : X + k < 2 ^ 32) :
    exec ⟨0x48, 0, 0, k⟩ p A X =
      if p.length < X + k + 2 then .stop .oob else .next 0 (EXTRACT_SHORT p (X + k)) X := by
  simp only [exec, BPF_RET, BPF_K, BPF_A, BPF_LD, BPF_W, BPF_H, BPF_B, BPF_ABS, BPF_IND]
  rw [Nat.mod_eq_of_lt hX]
  by_cases h : p.length < X + k + 2
  · have : k > p.length ∨ X > p.length - k ∨ 2 > p.length - (X + k) := by omega
    simp [h, this]
  · have : ¬ (k > p.length ∨ X > p.length - k ∨ 2 > p.length - (X + k)) := by omega
    simp [h, this]

theorem exec_ldx_msh (k : Nat) (p : List Byte) (A X : Nat) :
    exec ⟨0xb1, 0, 0, k⟩ p A X =
      if p.length < k + 1 then .stop .oob else .next 0 A (4 * (byteAt p k &&& 0x0f)) := by
  simp only [exec, BPF_RET, BPF_K, BPF_A, BPF_LD, BPF_LDX, BPF_W, BPF_H, BPF_B, BPF_ABS,
    BPF_IND, BPF_MSH, msh_le]
  by_cases h : p.length < k + 1
  · have : k ≥ p.length := by omega
    simp [h, this]
  · have : ¬ (k ≥ p.length) := by omega
    simp [h, this]

theorem exec_jeq (k jt jf : Nat) (p : List Byte) (A X : Nat) :
    exec ⟨0x15, jt, jf, k⟩ p A X = .next (if A = k then jt else jf) A X := by
  simp [exec, BPF_RET, BPF_K, BPF_A, BPF_LD, BPF_LDX, BPF_W, BPF_H, BPF_B, BPF_ABS,
    BPF_IND, BPF_MSH, BPF_IMM, BPF_JMP, BPF_JA, BPF_JGT, BPF_JGE, BPF_JEQ]

theorem exec_jset (k jt jf : Nat) (p : List Byte) (A X : Nat) :
    exec ⟨0x45, jt, jf, k⟩ p A X = .next (if A &&& k ≠ 0 then jt else jf) A X := by
  simp [exec, BPF_RET, BPF_K, BPF_A, BPF_LD, BPF_LDX, BPF_W, BPF_H, BPF_B, BPF_ABS,
    BPF_IND, BPF_MSH, BPF_IMM, BPF_JMP, BPF_JA, BPF_JGT, BPF_JGE, BPF_JEQ, BPF_JSET]

theorem exec_ret (k : Nat) (p : List Byte) (A X : Nat) :
    exec ⟨0x06, 0, 0, k⟩ p A X = .stop (.ret k) := by
  simp [exec, BPF_RET, BPF_K]

/-- A run of `insns` with a budget of at least 13 instructions follows `ssh_run`. -/
theorem bpf_run_insns (p : List Byte) (extra : Nat) :
    bpf_run insns p (extra + 13) 0 0 0 = ssh_run p := by
  obtain ⟨h0, h1, h2, h3, h4, h5, h6, h7, h8, h9, h10, h11, h12⟩ := insns_get
  unfold ssh_run
  by_cases c0 : p.length < 14
  · simp [bpf_run, h0, exec_ldh_abs, c0]
  simp only [c0, if_false]
  by_cases c1 : EXTRACT_SHORT p 12 = 0x800
  swap
  · simp [bpf_run, h0, h1, h12, exec_ldh_abs, exec_jeq, exec_ret, c0, c1]
  by_cases c2 : p.length < 24
  · simp [bpf_run, h0, h1, h2, exec_ldh_abs, exec_ldb_abs, exec_jeq, c0, c1, c2]
  by_cases c3 : byteAt p 23 = 6
  swap
  · simp [bpf_run, h0, h1, h2, h3, h12, exec_ldh_abs, exec_ldb_abs, exec_jeq, exec_ret,
      c0, c1, c2, c3]
  have c4 : ¬ p.length < 22 := by omega
  have c6 : ¬ p.length < 15 := by omega
  by_cases c5 : EXTRACT_SHORT p 20 &&& 0x1fff = 0
  swap
  · simp [bpf_run, h0, h1, h2, h3, h4, h5, h12, exec_ldh_abs, exec_ldb_abs, exec_jeq,
      exec_jset, exec_ret, c0, c1, c2, c3, c4, c5]
  have hx14 : 4 * (byteAt p 14 &&& 0x0f) + 14 < 2 ^ 32 := by
    have := msh_bound (byteAt p 14); omega
  have hx16 : 4 * (byteAt p 14 &&& 0x0f) + 16 < 2 ^ 32 := by
    have := msh_bound (byteAt p 14); omega
  have e7 := exec_ldh_ind 14 p (EXTRACT_SHORT p 20) _ hx14
  by_cases c7 : p.length < 4 * (byteAt p 14 &&& 0x0f) + 16
  · simp [bpf_run, h0, h1, h2, h3, h4, h5, h6, h7, exec_ldh_abs, exec_ldb_abs, exec_jeq,
      exec_jset, exec_ldx_msh, e7, c0, c1, c2, c3, c4, c5, c6, c7]
  by_cases c8 : EXTRACT_SHORT p (4 * (byteAt p 14 &&& 0x0f) + 14) = 22
  · simp [bpf_run, h0, h1, h2, h3, h4, h5, h6, h7, h8, h11, exec_ldh_abs, exec_ldb_abs,
      exec_jeq, exec_jset, exec_ldx_msh, exec_ret, e7, c0, c1, c2, c3, c4, c5, c6, c7, c8]
  have e9 := exec_ldh_ind 16 p (EXTRACT_SHORT p (4 * (byteAt p 14 &&& 0x0f) + 14)) _ hx16
  by_cases c9 : p.length < 4 * (byteAt p 14 &&& 0x0f) + 18
  · simp [bpf_run, h0, h1, h2, h3, h4, h5, h6, h7, h8, h9, exec_ldh_abs, exec_ldb_abs,
      exec_jeq, exec_jset, exec_ldx_msh, e7, e9, c0, c1, c2, c3, c4, c5, c6, c7, c8, c9]
  by_cases c10 : EXTRACT_SHORT p (4 * (byteAt p 14 &&& 0x0f) + 16) = 22
  · simp [bpf_run, h0, h1, h2, h3, h4, h5, h6, h7, h8, h9, h10, h11, exec_ldh_abs,
      exec_ldb_abs, exec_jeq, exec_jset, exec_ldx_msh, exec_ret, e7, e9,
      c0, c1, c2, c3, c4, c5, c6, c7, c8, c9, c10]
  · simp [bpf_run, h0, h1, h2, h3, h4, h5, h6, h7, h8, h9, h10, h12, exec_ldh_abs,
      exec_ldb_abs, exec_jeq, exec_jset, exec_ldx_msh, exec_ret, e7, e9,
      c0, c1, c2, c3, c4, c5, c6, c7, c8, c9, c10]

theorem bpf_filter_insns (p : List Byte) :
    bpf_filter insns p = match (ssh_run p).1 with | .ret v => v | _ => 0 := by
  have h := bpf_run_insns p 0
  have hl : insns.length = 0 + 13 := rfl
  unfold bpf_filter
  rw [hl, h]

theorem loads_in_bounds_insns (p : List Byte) :
    loads_in_bounds insns p ↔ (ssh_run p).1 ≠ Outcome.oob := by
  have h := bpf_run_insns p 0
  have hl : insns.length = 0 + 13 := rfl
  unfold loads_in_bounds
  rw [hl, h]

/-! ## Claims about the filter program -/

/-- C1, as stated, fails: `fragment_frame` is an IPv4/TCP frame with every load in
bounds, fragment offset 1 and both ports 22, and the filter does not accept it. -/
theorem set_filter_fragment_not_accepted :
    loads_in_bounds insns fragment_frame ∧ EXTRACT_SHORT fragment_frame 12 = 0x0800 ∧
    byteAt fragment_frame 23 = 6 ∧ EXTRACT_SHORT fragment_frame 20 &&& 0x1fff ≠ 0 ∧
    bpf_filter insns fragment_frame ≠ 0xffffffff := by
  decide

/-- C1 (amended): for every frame whose filter loads are all in bounds, whose 16-bit
big-endian field at offset 12 is 0x0800, whose byte at offset 23 is 6 and whose field at
offset 20 has one of the low 13 bits set (a non-first fragment), the program of
`set_filter` returns the reject verdict 0, whatever the bytes at the port positions. -/
theorem set_filter_fragment_rejected (p : List Byte)
    (hb : loads_in_bounds insns p)
    (hip : EXTRACT_SHORT p 12 = 0x0800)
    (htcp : byteAt p 23 = 6)
    (hfrag : EXTRACT_SHORT p 20 &&& 0x1fff ≠ 0) :
    bpf_filter insns p = 0 := by
  rw [loads_in_bounds_insns] at hb
  rw [bpf_filter_insns]
  unfold ssh_run at hb ⊢
  by_cases c0 : p.length < 14
  · simp [c0] at hb
  by_cases c2 : p.length < 24
  · simp [c0, c2, hip] at hb
  simp [c0, c2, hip, htcp, hfrag]

theorem set_filter_fragment_rejected_witness :
    bpf_filter insns fragment_frame = 0 :=
  set_filter_fragment_rejected fragment_frame (by decide) (by decide) (by decide) (by decide)

/-- C2: for every frame whose filter loads are all in bounds and that is not a non-first
IPv4/TCP fragment, the program of `set_filter` returns accept (0xffffffff) exactly when
the ethertype is 0x0800, the protocol byte is 6 and the 16-bit field at offset X+14 or
X+16 is 22, with X = 4 * (byte 14 & 0x0f); otherwise it returns reject (0). -/
theorem set_filter_verdict (p : List Byte)
    (hb : loads_in_bounds insns p)
    (hnf : ¬ (EXTRACT_SHORT p 12 = 0x0800 ∧ byteAt p 23 = 6 ∧
              EXTRACT_SHORT p 20 &&& 0x1fff ≠ 0)) :
    bpf_filter insns p =
      if EXTRACT_SHORT p 12 = 0x0800 ∧ byteAt p 23 = 6 ∧
          (EXTRACT_SHORT p (4 * (byteAt p 14 &&& 0x0f) + 14) = 22 ∨
           EXTRACT_SHORT p (4 * (byteAt p 14 &&& 0x0f) + 16) = 22)
      then 0xffffffff else 0 := by
  rw [loads_in_bounds_insns] at hb
  rw [bpf_filter_insns]
  unfold ssh_run at hb ⊢
  by_cases c0 : p.length < 14
  · simp [c0] at hb
  by_cases c1 : EXTRACT_SHORT p 12 = 0x800
  swap
  · simp [c0, c1]
  by_cases c2 : p.length < 24
  · simp [c0, c1, c2] at hb
  by_cases c3 : byteAt p 23 = 6
  swap
  · simp [c0, c1, c2, c3]
  have c5 : EXTRACT_SHORT p 20 &&& 0x1fff = 0 := by
    by_contra h
    exact hnf ⟨c1, c3, h⟩
  by_cases c7 : p.length < 4 * (byteAt p 14 &&& 0x0f) + 16
  · simp [c0, c1, c2, c3, c5, c7] at hb
  by_cases c8 : EXTRACT_SHORT p (4 * (byteAt p 14 &&& 0x0f) + 14) = 22
  · simp [c0, c1, c2, c3, c5, c7, c8]
  by_cases c9 : p.length < 4 * (byteAt p 14 &&& 0x0f) + 18
  · simp [c0, c1, c2, c3, c5, c7, c8, c9] at hb
  by_cases c10 : EXTRACT_SHORT p (4 * (byteAt p 14 &&& 0x0f) + 16) = 22
  · simp [c0, c1, c2, c3, c5, c7, c8, c9, c10]
  · simp [c0, c1, c2, c3, c5, c7, c8, c9, c10]

theorem set_filter_verdict_witness :
    bpf_filter insns ssh_frame = 0xffffffff :=
  set_filter_verdict ssh_frame (by decide) (by decide)

theorem ssh_run_ends (p : List Byte) : ends_well (ssh_run p) := by
  unfold ssh_run
  split_ifs <;> simp [ends_well]

/-- C10: the program of `set_filter` is well formed — it has 13 instructions; both targets
`i+1+jt` and `i+1+jf` of every jump at index `i` lie after `i` and at most at index 12;
every instruction that is neither a jump nor a return has a successor; the last
instruction is a return — and on every frame, with any budget of 13 or more steps, a run
executes at most 13 instructions and ends at a return or at an out-of-bounds load. -/
theorem set_filter_well_formed :
    insns.length = 13 ∧
    (∀ i ins, insns[i]? = some ins → is_jump ins = true →
      i < i + 1 + ins.jt ∧ i + 1 + ins.jt ≤ 12 ∧ i < i + 1 + ins.jf ∧ i + 1 + ins.jf ≤ 12) ∧
    (∀ i ins, insns[i]? = some ins → is_jump ins = false → is_return ins = false →
      (insns[i + 1]?).isSome = true) ∧
    (insns[12]?).map is_return = some true ∧
    (∀ (p : List Byte) (extra : Nat), ∃ o n, bpf_run insns p (13 + extra) 0 0 0 = (o, n) ∧
      n ≤ 13 ∧ ((∃ v, o = Outcome.ret v) ∨ o = Outcome.oob)) := by
  refine ⟨rfl, ?_, ?_, by decide, ?_⟩
  · intro i ins hi hj
    have hlt : i < 13 := by
      by_contra hge
      have : insns.length ≤ i := by simp [insns]; omega
      rw [List.getElem?_eq_none this] at hi
      exact absurd hi (by simp)
    interval_cases i <;> simp [insns, BPF_STMT, BPF_JUMP] at hi <;> subst hi <;>
      first
      | (exfalso; revert hj; decide)
      | decide
  · intro i ins hi hj hr
    have hlt : i < 13 := by
      by_contra hge
      have : insns.length ≤ i := by simp [insns]; omega
      rw [List.getElem?_eq_none this] at hi
      exact absurd hi (by simp)
    interval_cases i <;> simp [insns, BPF_STMT, BPF_JUMP] at hi <;> subst hi <;>
      first
      | (exfalso; revert hr; decide)
      | (exfalso; revert hj; decide)
      | decide
  · intro p extra
    refine ⟨(ssh_run p).1, (ssh_run p).2, ?_, (ssh_run_ends p).1, (ssh_run_ends p).2⟩
    rw [Nat.add_comm, bpf_run_insns]

/-! ## Claims about the record walk -/

theorem wordalign_spec (x : Nat) :
    BPF_WORDALIGN x % 4 = 0 ∧ x ≤ BPF_WORDALIGN x ∧ BPF_WORDALIGN x < x + 4 := by
  have h : (x + 3) &&& 3 = (x + 3) % 4 := Nat.and_pow_two_sub_one_eq_mod (x + 3) 2
  have e : BPF_WORDALIGN x = (x + 3) - (x + 3) % 4 := by
    simp only [BPF_WORDALIGN, BPF_ALIGNMENT]
    exact congrArg (fun t => x + 3 - t) h
  rw [e]
  omega

theorem wordalign_pos (x : Nat) (hx : 0 < x) : 0 < BPF_WORDALIGN x := by
  have := wordalign_spec x
  omega

/-- C4, as stated, fails: for the record with header length 18 and capture length
0xffffffff the 32-bit sum wraps to 17 and one pass moves the cursor by 20, which is
less than 18 + 0xffffffff. -/
theorem decode_step_sum_wraps :
    (wrap_buf 0).bh_hdrlen = 18 ∧ (wrap_buf 0).bh_caplen = 0xffffffff ∧
    (decode_step wrap_buf 0).2 = 0 + 20 ∧
    ¬ ((wrap_buf 0).bh_hdrlen + (wrap_buf 0).bh_caplen ≤ 20) := by
  decide

/-- C4 (amended): for every record whose header length plus capture length is below
2^32 (the sum does not wrap), one pass of the walk moves the cursor forward by the least
multiple of 4 that is at least `bh_hdrlen + bh_caplen`: by exactly that sum when it is a
multiple of 4, and by the sum plus 1 to 3 bytes otherwise. -/
theorem decode_step_advance (buf : Nat → bpf_hdr) (ptr : Nat)
    (hsum : (buf ptr).bh_hdrlen + (buf ptr).bh_caplen < 2 ^ 32) :
    ∃ adv, (decode_step buf ptr).2 = ptr + adv ∧
      4 ∣ adv ∧ (buf ptr).bh_hdrlen + (buf ptr).bh_caplen ≤ adv ∧
      (∀ m, 4 ∣ m → (buf ptr).bh_hdrlen + (buf ptr).bh_caplen ≤ m → adv ≤ m) ∧
      (((buf ptr).bh_hdrlen + (buf ptr).bh_caplen) % 4 = 0 →
        adv = (buf ptr).bh_hdrlen + (buf ptr).bh_caplen) ∧
      (((buf ptr).bh_hdrlen + (buf ptr).bh_caplen) % 4 ≠ 0 →
        (buf ptr).bh_hdrlen + (buf ptr).bh_caplen + 1 ≤ adv ∧
        adv ≤ (buf ptr).bh_hdrlen + (buf ptr).bh_caplen + 3) := by
  refine ⟨BPF_WORDALIGN ((buf ptr).bh_hdrlen + (buf ptr).bh_caplen), ?_, ?_⟩
  · have e : hdr_plus_cap (buf ptr) = (buf ptr).bh_hdrlen + (buf ptr).bh_caplen :=
      Nat.mod_eq_of_lt hsum
    simp [decode_step, e]
  have h := wordalign_spec ((buf ptr).bh_hdrlen + (buf ptr).bh_caplen)
  refine ⟨Nat.dvd_of_mod_eq_zero h.1, h.2.1, ?_, ?_, ?_⟩
  · intro m hm hle
    obtain ⟨q, rfl⟩ := hm
    omega
  · intro h0
    omega
  · intro h0
    omega

theorem decode_step_advance_witness :
    ∃ adv, (decode_step uniform_buf 0).2 = 0 + adv ∧
      4 ∣ adv ∧ (uniform_buf 0).bh_hdrlen + (uniform_buf 0).bh_caplen ≤ adv ∧
      (∀ m, 4 ∣ m → (uniform_buf 0).bh_hdrlen + (uniform_buf 0).bh_caplen ≤ m → adv ≤ m) ∧
      (((uniform_buf 0).bh_hdrlen + (uniform_buf 0).bh_caplen) % 4 = 0 →
        adv = (uniform_buf 0).bh_hdrlen + (uniform_buf 0).bh_caplen) ∧
      (((uniform_buf 0).bh_hdrlen + (uniform_buf 0).bh_caplen) % 4 ≠ 0 →
        (uniform_buf 0).bh_hdrlen + (uniform_buf 0).bh_caplen + 1 ≤ adv ∧
        adv ≤ (uniform_buf 0).bh_hdrlen + (uniform_buf 0).bh_caplen + 3) :=
  decode_step_advance uniform_buf 0 (by decide)

theorem wordalign_examples : BPF_WORDALIGN 32 = 32 ∧ BPF_WORDALIGN 33 = 36 := by
  decide

theorem decode_loop_exit (buf : Nat → bpf_hdr) (read_bytes fuel ptr : Nat)
    (h : ¬ ptr < read_bytes) : decode_loop buf read_bytes fuel ptr = some ([], ptr) := by
  cases fuel <;> simp [decode_loop, h]

theorem decode_loop_pass (buf : Nat → bpf_hdr) (read_bytes fuel ptr : Nat)
    (h : ptr < read_bytes) (rs : List FrameRecord) (stop : Nat)
    (hrest : decode_loop buf read_bytes fuel (decode_step buf ptr).2 = some (rs, stop)) :
    decode_loop buf read_bytes (fuel + 1) ptr = some ((decode_step buf ptr).1 :: rs, stop) := by
  simp [decode_loop, h, hrest]

theorem total_size_cons (r : bpf_hdr) (rs : List bpf_hdr) :
    total_size (r :: rs) = record_size r + total_size rs := by
  simp [total_size]

/-- The walk over records laid out back to back from `base`, each of positive length. -/
theorem decode_loop_layout (buf : Nat → bpf_hdr) :
    ∀ (recs : List bpf_hdr) (base fuel : Nat),
      holds_records buf base recs →
      (∀ r ∈ recs, 0 < r.bh_hdrlen + r.bh_caplen) →
      total_size recs < 2 ^ 32 →
      recs.length ≤ fuel →
      ∃ out, decode_loop buf (base + total_size recs) fuel base
            = some (out, base + total_size recs) ∧
        out.length = recs.length ∧
        ∀ i (hi : i < recs.length), (out[i]?).map FrameRecord.eh
            = some (base + total_size (recs.take i) + recs[i].bh_hdrlen) := by
  intro recs
  induction recs with
  | nil =>
    intro base fuel _ _ _ _
    refine ⟨[], ?_, rfl, ?_⟩
    · simpa [total_size] using decode_loop_exit buf base fuel base (Nat.lt_irrefl _)
    · intro i hi
      exact absurd hi (Nat.not_lt_zero _)
  | cons r rs ih =>
    intro base fuel hh hpos hlen hfuel
    obtain ⟨hr, hrest⟩ := hh
    rw [total_size_cons] at hlen
    have hfit : hdr_plus_cap r = r.bh_hdrlen + r.bh_caplen := by
      have := (wordalign_spec (r.bh_hdrlen + r.bh_caplen)).2.1
      exact Nat.mod_eq_of_lt (by unfold record_size at hlen; omega)
    have hrpos : 0 < record_size r :=
      wordalign_pos _ (hpos r (List.mem_cons_self _ _))
    cases fuel with
    | zero => simp at hfuel
    | succ fuel =>
      have hstep : decode_step buf base = (⟨base, base + r.bh_hdrlen⟩, base + record_size r) := by
        simp [decode_step, hr, record_size, hfit]
      obtain ⟨out, hout, hlen, hidx⟩ := ih (base + record_size r) fuel hrest
        (fun x hx => hpos x (List.mem_cons_of_mem _ hx)) (by omega) (by simpa using hfuel)
      have htot : base + total_size (r :: rs) = base + record_size r + total_size rs := by
        rw [total_size_cons]; omega
      refine ⟨⟨base, base + r.bh_hdrlen⟩ :: out, ?_, by simp [hlen], ?_⟩
      · rw [htot]
        have := decode_loop_pass buf (base + record_size r + total_size rs) fuel base
          (by omega) out (base + record_size r + total_size rs) (by rw [hstep]; exact hout)
        rw [hstep] at this
        exact this
      · intro i hi
        cases i with
        | zero => simp [total_size]
        | succ i =>
          have hi2 : i < rs.length := by simpa using hi
          have := hidx i hi2
          simp only [List.getElem?_cons_succ, List.take_succ_cons, List.getElem_cons_succ,
            total_size_cons]
          rw [this]
          congr 1
          omega

/-- C3, as stated, fails: a buffer made of the records `(hdrlen 18, caplen 14)` and
`(hdrlen 0, caplen 0)`, filled length 32, is walked to the end and gives one record,
not two. -/
theorem decode_loop_zero_record_dropped :
    holds_records one_frame_then_zero 0 [⟨14, 18⟩, ⟨0, 0⟩] ∧
    total_size [⟨14, 18⟩, ⟨0, 0⟩] = 32 ∧
    decode_loop one_frame_then_zero (total_size [⟨14, 18⟩, ⟨0, 0⟩]) 2 0
      = some ([⟨0, 18⟩], 32) ∧
    ([⟨0, 18⟩] : List FrameRecord).length ≠ ([⟨14, 18⟩, ⟨0, 0⟩] : List bpf_hdr).length := by
  refine ⟨?_, by decide, by decide, by decide⟩
  simp [holds_records, one_frame_then_zero, record_size]
  decide

/-- C3 (amended): for every buffer that consists of n >= 0 consecutive records, record i
having header length h_i and capture length c_i with h_i + c_i > 0 and occupying
round_up_4(h_i + c_i) bytes, the filled length being the total of those sizes (a filled
length is below 2^32, being at most the buffer length `blen` that `BIOCGBLEN` reports as
a `u_int`), the walk of `read_packets` (given at least n passes) ends at the filled
length with exactly n records in buffer order, the i-th with payload offset
(sum over j < i of round_up_4(h_j + c_j)) + h_i; for n = 0 it yields no record. -/
theorem decode_loop_records (buf : Nat → bpf_hdr) (recs : List bpf_hdr) (fuel : Nat)
    (hbuf : holds_records buf 0 recs)
    (hpos : ∀ r ∈ recs, 0 < r.bh_hdrlen + r.bh_caplen)
    (hlen : total_size recs < 2 ^ 32)
    (hfuel : recs.length ≤ fuel) :
    ∃ out, decode_loop buf (total_size recs) fuel 0 = some (out, total_size recs) ∧
      out.length = recs.length ∧
      ∀ i (hi : i < recs.length), (out[i]?).map FrameRecord.eh
          = some (total_size (recs.take i) + recs[i].bh_hdrlen) := by
  simpa using decode_loop_layout buf recs 0 fuel hbuf hpos hlen hfuel

theorem decode_loop_records_witness :
    decode_loop three_frames 132 3 0 = some ([⟨0, 18⟩, ⟨32, 50⟩, ⟨112, 130⟩], 132) ∧
    ∃ out, decode_loop three_frames (total_size [⟨14, 18⟩, ⟨60, 18⟩, ⟨1, 18⟩]) 3 0
        = some (out, total_size [⟨14, 18⟩, ⟨60, 18⟩, ⟨1, 18⟩]) ∧
      out.length = ([⟨14, 18⟩, ⟨60, 18⟩, ⟨1, 18⟩] : List bpf_hdr).length ∧
      ∀ i (hi : i < ([⟨14, 18⟩, ⟨60, 18⟩, ⟨1, 18⟩] : List bpf_hdr).length),
        (out[i]?).map FrameRecord.eh
          = some (total_size (([⟨14, 18⟩, ⟨60, 18⟩, ⟨1, 18⟩] : List bpf_hdr).take i)
              + ([⟨14, 18⟩, ⟨60, 18⟩, ⟨1, 18⟩] : List bpf_hdr)[i].bh_hdrlen) :=
  ⟨by decide,
   decode_loop_records three_frames [⟨14, 18⟩, ⟨60, 18⟩, ⟨1, 18⟩] 3
    (by simp [holds_records, three_frames, record_size]; decide)
    (by decide) (by decide) (by decide)⟩

theorem decode_loop_mono (buf : Nat → bpf_hdr) (read_bytes : Nat) :
    ∀ (fuel ptr : Nat) (r : List FrameRecord × Nat),
      decode_loop buf read_bytes fuel ptr = some r →
      decode_loop buf read_bytes (fuel + 1) ptr = some r := by
  intro fuel
  induction fuel with
  | zero =>
    intro ptr r h
    by_cases hp : ptr < read_bytes
    · simp [decode_loop, hp] at h
    · rw [decode_loop_exit buf read_bytes 0 ptr hp] at h
      rw [decode_loop_exit buf read_bytes 1 ptr hp]
      exact h
  | succ fuel ih =>
    intro ptr r h
    by_cases hp : ptr < read_bytes
    · cases hrest : decode_loop buf read_bytes fuel (decode_step buf ptr).2 with
      | none => simp [decode_loop, hp, hrest] at h
      | some q =>
        obtain ⟨rs, stop⟩ := q
        rw [decode_loop_pass buf read_bytes fuel ptr hp rs stop hrest] at h
        rw [decode_loop_pass buf read_bytes (fuel + 1) ptr hp rs stop (ih _ _ hrest)]
        exact h
    · rw [decode_loop_exit buf read_bytes _ ptr hp] at h
      rw [decode_loop_exit buf read_bytes _ ptr hp]
      exact h

theorem decode_loop_mono_le (buf : Nat → bpf_hdr) (read_bytes fuel ptr : Nat)
    (r : List FrameRecord × Nat) (h : decode_loop buf read_bytes fuel ptr = some r) :
    ∀ extra, decode_loop buf read_bytes (fuel + extra) ptr = some r := by
  intro extra
  induction extra with
  | zero => exact h
  | succ e ih => exact decode_loop_mono buf read_bytes (fuel + e) ptr r ih

/-- On a record whose 32-bit length sum is 0, met below the filled length, the cursor
stays and the walk goes on. -/
theorem decode_loop_stuck (buf : Nat → bpf_hdr) (read_bytes ptr : Nat)
    (hp : ptr < read_bytes) (hz : hdr_plus_cap (buf ptr) = 0) :
    ∀ fuel, decode_loop buf read_bytes fuel ptr = none := by
  have hstep : (decode_step buf ptr).2 = ptr := by
    have h0 : BPF_WORDALIGN 0 = 0 := by decide
    simp [decode_step, hz, h0]
  intro fuel
  induction fuel with
  | zero => simp [decode_loop, hp]
  | succ fuel ih => simp [decode_loop, hp, hstep, ih]

/-- The walk from the cursor reached after `k` passes, when no record met is empty. -/
theorem decode_loop_progress (buf : Nat → bpf_hdr) (read_bytes : Nat)
    (hpos : ∀ k, cursor_at buf k < read_bytes → 0 < hdr_plus_cap (buf (cursor_at buf k))) :
    ∀ (fuel k : Nat), read_bytes - cursor_at buf k ≤ fuel →
      ∃ out stop, decode_loop buf read_bytes fuel (cursor_at buf k) = some (out, stop) ∧
        out.length ≤ read_bytes - cursor_at buf k ∧ read_bytes ≤ stop ∧
        ∀ r ∈ out, r.bpf_packet < read_bytes := by
  intro fuel
  induction fuel with
  | zero =>
    intro k hk
    have hp : ¬ cursor_at buf k < read_bytes := by omega
    exact ⟨[], cursor_at buf k, decode_loop_exit buf read_bytes 0 _ hp, by simp, by omega,
      by simp⟩
  | succ fuel ih =>
    intro k hk
    by_cases hp : cursor_at buf k < read_bytes
    · have hadv := wordalign_pos _ (hpos k hp)
      have hnext : cursor_at buf (k + 1) = cursor_at buf k +
          BPF_WORDALIGN (hdr_plus_cap (buf (cursor_at buf k))) :=
        rfl
      obtain ⟨out, stop, hrun, hlen, hstop, hmem⟩ := ih (k + 1) (by omega)
      refine ⟨(decode_step buf (cursor_at buf k)).1 :: out, stop,
        decode_loop_pass buf read_bytes fuel _ hp out stop hrun, ?_, hstop, ?_⟩
      · simp only [List.length_cons]
        omega
      · intro r hr
        rcases List.mem_cons.mp hr with h | h
        · rw [h]; exact hp
        · exact hmem r h
    · exact ⟨[], cursor_at buf k, decode_loop_exit buf read_bytes _ _ hp, by simp, by omega,
        by simp⟩

/-- C9, as stated, fails: on a zeroed buffer with filled length 4 the record at the
cursor has header_length + capture_length = 0, the cursor never moves, and no number
of passes ends the walk; the same happens on a record with header length 4 and capture
length 0xfffffffc, whose 32-bit sum wraps to 0. -/
theorem decode_loop_zero_diverges :
    (¬ ∃ fuel, (decode_loop zero_buf 4 fuel 0).isSome = true) ∧
    (¬ ∃ fuel, (decode_loop wrap_zero_buf 4 fuel 0).isSome = true) := by
  constructor
  · rintro ⟨fuel, h⟩
    rw [decode_loop_stuck zero_buf 4 0 (by decide) (by decide) fuel] at h
    simp at h
  · rintro ⟨fuel, h⟩
    rw [decode_loop_stuck wrap_zero_buf 4 0 (by decide) (by decide) fuel] at h
    simp at h

/-- C9 (amended): for every buffer content and every filled length such that every
record the cursor meets below the filled length has a nonzero 32-bit sum
header_length + capture_length (the sum modulo 2^32, as the loop computes it), the walk
of `read_packets` ends after at most filled-length passes, yields a finite sequence of
records, each met at a cursor below the filled length, and stops with the cursor at or
past the filled length. -/
theorem decode_loop_terminates (buf : Nat → bpf_hdr) (read_bytes : Nat)
    (hpos : ∀ k, cursor_at buf k < read_bytes → 0 < hdr_plus_cap (buf (cursor_at buf k))) :
    ∃ out stop, (∀ extra, decode_loop buf read_bytes (read_bytes + extra) 0 = some (out, stop)) ∧
      out.length ≤ read_bytes ∧ read_bytes ≤ stop ∧
      ∀ r ∈ out, r.bpf_packet < read_bytes := by
  obtain ⟨out, stop, hrun, hlen, hstop, hmem⟩ :=
    decode_loop_progress buf read_bytes hpos read_bytes 0 (by simp [cursor_at])
  exact ⟨out, stop, decode_loop_mono_le buf read_bytes read_bytes 0 _ hrun,
    by simpa [cursor_at] using hlen, hstop, hmem⟩

theorem decode_loop_terminates_witness :
    ∃ out stop, (∀ extra, decode_loop uniform_buf 64 (64 + extra) 0 = some (out, stop)) ∧
      out.length ≤ 64 ∧ 64 ≤ stop ∧ ∀ r ∈ out, r.bpf_packet < 64 :=
  decode_loop_terminates uniform_buf 64
    (fun _ _ => by simp [uniform_buf, hdr_plus_cap])

/-! ## Claims about the device probe -/

theorem open_dev_from_first_free (open_ : Nat → SysResult) :
    ∀ (k remaining i : Nat), k < remaining →
      (∀ j, j < k → open_ (i + j) = SysResult.err EBUSY) →
      open_ (i + k) ≠ SysResult.err EBUSY →
      open_dev_from open_ remaining i = (open_ (i + k), List.range' i (k + 1)) := by
  intro k
  induction k with
  | zero =>
    intro remaining i hk _ hfree
    cases remaining with
    | zero => exact absurd hk (Nat.lt_irrefl _)
    | succ n =>
      simp only [Nat.add_zero] at hfree ⊢
      cases hres : open_ i with
      | ok fd => simp [open_dev_from, hres]
      | err e =>
        have hne : e ≠ EBUSY := by
          intro he
          exact hfree (by rw [hres, he])
        simp [open_dev_from, hres, hne]
  | succ k ih =>
    intro remaining i hk hbusy hfree
    cases remaining with
    | zero => exact absurd hk (Nat.not_lt_zero _)
    | succ n =>
      have h0 : open_ i = SysResult.err EBUSY := by simpa using hbusy 0 (Nat.succ_pos _)
      have hrec := ih n (i + 1) (by omega)
        (fun j hj => by
          have := hbusy (j + 1) (by omega)
          rwa [show i + 1 + j = i + (j + 1) by omega])
        (by rwa [show i + 1 + k = i + (k + 1) by omega])
      simp only [open_dev_from, h0, if_true, hrec]
      rw [show i + 1 + k = i + (k + 1) by omega]
      rfl

theorem open_dev_from_all_busy (open_ : Nat → SysResult) :
    ∀ (remaining i : Nat),
      (∀ j, j < remaining → open_ (i + j) = SysResult.err EBUSY) →
      open_dev_from open_ remaining i = (SysResult.err ENOENT, List.range' i remaining) := by
  intro remaining
  induction remaining with
  | zero =>
    intro i _
    simp [open_dev_from]
  | succ n ih =>
    intro i hbusy
    have h0 : open_ i = SysResult.err EBUSY := by simpa using hbusy 0 (Nat.succ_pos _)
    have hrec := ih (i + 1) (fun j hj => by
      have := hbusy (j + 1) (by omega)
      rwa [show i + 1 + j = i + (j + 1) by omega])
    simp only [open_dev_from, h0, if_true, hrec]
    rfl

/-- C5: for every k below the scan bound and every pool in which opening units 0..k-1
fails with EBUSY and opening unit k does not, `open_dev` opens exactly the units
0, 1, ..., k in that order and returns the outcome of unit k: its descriptor when that
open succeeded, failure with that open's errno otherwise. -/
theorem open_dev_first_free (open_ : Nat → SysResult) (k : Nat)
    (hk : k < scan_ceiling)
    (hbusy : ∀ i, i < k → open_ i = SysResult.err EBUSY)
    (hfree : open_ k ≠ SysResult.err EBUSY) :
    open_dev open_ = (open_ k, List.range (k + 1)) := by
  have h := open_dev_from_first_free open_ k scan_ceiling 0 hk
    (fun j hj => by simpa using hbusy j hj) (by simpa using hfree)
  rw [open_dev, h, List.range_eq_range']
  simp

theorem open_dev_first_free_witness :
    open_dev pool_busy3 = (SysResult.ok 7, [0, 1, 2, 3]) :=
  open_dev_first_free pool_busy3 3 (by decide)
    (fun i hi => by simp [pool_busy3, hi]) (by decide)

/-- C6: for every pool in which every unit below the scan bound reports EBUSY,
`open_dev` fails with errno ENOENT after exactly `scan_ceiling` opens, one per unit
0..scan_ceiling-1 in ascending order; the bound of the loop is 255. -/
theorem open_dev_all_busy (open_ : Nat → SysResult)
    (hbusy : ∀ i, i < scan_ceiling → open_ i = SysResult.err EBUSY) :
    open_dev open_ = (SysResult.err ENOENT, List.range scan_ceiling) ∧
    (open_dev open_).2.length = scan_ceiling ∧ scan_ceiling = 255 := by
  have h := open_dev_from_all_busy open_ scan_ceiling 0
    (fun j hj => by simpa using hbusy j hj)
  have e : open_dev open_ = (SysResult.err ENOENT, List.range scan_ceiling) := by
    rw [open_dev, h, List.range_eq_range']
  refine ⟨e, ?_, rfl⟩
  rw [e]
  simp

theorem open_dev_all_busy_witness :
    open_dev pool_all_busy = (SysResult.err ENOENT, List.range scan_ceiling) ∧
    (open_dev pool_all_busy).2.length = scan_ceiling ∧ scan_ceiling = 255 :=
  open_dev_all_busy pool_all_busy (fun _ _ => rfl)

/-! ## Claims about the link-type check and the start-up sequence -/

/-- C7: for every link type the device reports, `check_dlt` succeeds (returns 0) exactly
when it is `DLT_EN10MB`; for every other value it fails with errno EINVAL, `main` never
calls `set_filter` (nor `read_packets`), and a start-up that got as far as `check_dlt`
ends in `err(EXIT_FAILURE, "check_dlt")`. -/
theorem check_dlt_ethernet_only (env : Env) (dlt : Nat) (hdlt : env.gdlt = SysResult.ok dlt) :
    (check_dlt env.gdlt = SysResult.ok 0 ↔ dlt = DLT_EN10MB) ∧
    (dlt ≠ DLT_EN10MB →
      check_dlt env.gdlt = SysResult.err EINVAL ∧
      Stage.set_filter ∉ (main env).calls ∧ Stage.read_packets ∉ (main env).calls ∧
      (Stage.check_dlt ∈ (main env).calls → (main env).failed = some Stage.check_dlt)) := by
  constructor
  · by_cases h : dlt = DLT_EN10MB <;> simp [check_dlt, hdlt, h]
  · intro h
    have hc : check_dlt env.gdlt = SysResult.err EINVAL := by simp [check_dlt, hdlt, h]
    refine ⟨hc, ?_⟩
    unfold main
    rw [hc]
    split
    · simp
    · split
      · simp
      · split <;> simp

theorem check_dlt_ethernet_only_witness :
    (check_dlt env_raw_ip.gdlt = SysResult.ok 0 ↔ 12 = DLT_EN10MB) ∧
    (12 ≠ DLT_EN10MB →
      check_dlt env_raw_ip.gdlt = SysResult.err EINVAL ∧
      Stage.set_filter ∉ (main env_raw_ip).calls ∧
      Stage.read_packets ∉ (main env_raw_ip).calls ∧
      (Stage.check_dlt ∈ (main env_raw_ip).calls →
        (main env_raw_ip).failed = some Stage.check_dlt)) :=
  check_dlt_ethernet_only env_raw_ip 12 rfl

/-! ## The read loop -/

theorem read_step_not_released (rd : Nat → ReadResult) (ph : Phase)
    (h : ph ≠ Phase.released) : read_step rd ph ≠ Phase.released := by
  cases ph with
  | reading i =>
    simp only [read_step]
    split <;> simp
  | walking i ptr =>
    simp only [read_step]
    split <;> simp
  | released => exact absurd rfl h

theorem read_run_not_released (rd : Nat → ReadResult) :
    ∀ (n : Nat) (ph : Phase), ph ≠ Phase.released → read_run rd n ph ≠ Phase.released := by
  intro n
  induction n with
  | zero => intro ph h; exact h
  | succ n ih => intro ph h; exact ih _ (read_step_not_released rd ph h)

/-- C8, the code at the failing input: after a first read that fails with ENXIO (not
a transient interrupt) the loop of `read_packets` is back at its top about to issue the
next read, after that one the one after, and no number of moves brings it to the release
of the buffer and device. -/
theorem read_error_is_retried :
    (reads_gone 0).ret = -1 ∧ (reads_gone 0).errno = ENXIO ∧
    read_step reads_gone (Phase.reading 0) = Phase.reading 1 ∧
    read_run reads_gone 2 (Phase.reading 0) = Phase.reading 2 ∧
    ¬ ∃ n, read_run reads_gone n (Phase.reading 0) = Phase.released := by
  refine ⟨rfl, rfl, by decide, by decide, ?_⟩
  rintro ⟨n, h⟩
  exact read_run_not_released reads_gone n _ (by simp) h

end Bpf

namespace RtTable

/-! ## Claims about the route-table walker -/

theorem or_low_mask (a n : Nat) : a ||| (2 ^ n - 1) = 2 ^ n * (a / 2 ^ n) + (2 ^ n - 1) := by
  have hpos : 0 < 2 ^ n := Nat.two_pow_pos n
  have hr : a % 2 ^ n < 2 ^ n := Nat.mod_lt _ hpos
  have hm : 2 ^ n - 1 < 2 ^ n := by omega
  have habs : a % 2 ^ n ||| (2 ^ n - 1) = 2 ^ n - 1 := by
    apply Nat.eq_of_testBit_eq
    intro i
    rw [Nat.testBit_or, Nat.testBit_two_pow_sub_one]
    by_cases hi : i < n
    · simp [hi]
    · have hle : 2 ^ n ≤ 2 ^ i := Nat.pow_le_pow_right (by decide) (by omega)
      have : (a % 2 ^ n).testBit i = false := Nat.testBit_lt_two_pow (by omega)
      simp [hi, this]
  calc a ||| (2 ^ n - 1)
      = (2 ^ n * (a / 2 ^ n) + a % 2 ^ n) ||| (2 ^ n - 1) := by rw [Nat.div_add_mod]
    _ = (2 ^ n * (a / 2 ^ n) ||| a % 2 ^ n) ||| (2 ^ n - 1) := by
        rw [Nat.mul_add_lt_is_or hr]
    _ = 2 ^ n * (a / 2 ^ n) ||| (a % 2 ^ n ||| (2 ^ n - 1)) := Nat.or_assoc _ _ _
    _ = 2 ^ n * (a / 2 ^ n) ||| (2 ^ n - 1) := by rw [habs]
    _ = 2 ^ n * (a / 2 ^ n) + (2 ^ n - 1) := (Nat.mul_add_lt_is_or hm _).symm

theorem ROUNDUP_eq (a n : Nat) :
    ROUNDUP a (2 ^ n) = if a % 2 ^ n ≠ 0 then 2 ^ n * (a / 2 ^ n + 1) else a := by
  have hpos : 0 < 2 ^ n := Nat.two_pow_pos n
  unfold ROUNDUP
  rw [Nat.and_pow_two_sub_one_eq_mod, or_low_mask]
  by_cases h : a % 2 ^ n = 0
  · simp [h]
  · simp only [ne_eq, h, not_false_eq_true, if_true, Nat.mul_add, Nat.mul_one]
    omega

theorem ROUNDUP_examples :
    ROUNDUP 0 8 = 0 ∧ ROUNDUP 5 8 = 8 ∧ ROUNDUP 16 8 = 16 ∧ ROUNDUP 17 8 = 24 ∧
    ROUNDUP 7 1 = 7 ∧ NEXT_SA 8 100 0 = 108 ∧ NEXT_SA 8 100 16 = 116 ∧
    NEXT_SA 8 100 5 = 108 := by
  decide

/-- C11: for every natural number `a` and every power of two `size = 2 ^ n`, the macro
`ROUNDUP(a, size)` is the least multiple of `size` that is at least `a`: it is a
multiple of `size`, it is at least `a`, no smaller multiple of `size` is at least `a`;
it is `a` itself when `a` is a multiple of `size`, and otherwise a value `r` with
`a < r < a + size` and `r mod size = 0`. -/
theorem ROUNDUP_least_multiple (a n : Nat) :
    2 ^ n ∣ ROUNDUP a (2 ^ n) ∧ a ≤ ROUNDUP a (2 ^ n) ∧
    (∀ m, 2 ^ n ∣ m → a ≤ m → ROUNDUP a (2 ^ n) ≤ m) ∧
    (a % 2 ^ n = 0 → ROUNDUP a (2 ^ n) = a) ∧
    (a % 2 ^ n ≠ 0 →
      a < ROUNDUP a (2 ^ n) ∧ ROUNDUP a (2 ^ n) < a + 2 ^ n ∧
      ROUNDUP a (2 ^ n) % 2 ^ n = 0) := by
  have hpos : 0 < 2 ^ n := Nat.two_pow_pos n
  have hdm : 2 ^ n * (a / 2 ^ n) + a % 2 ^ n = a := Nat.div_add_mod a (2 ^ n)
  have hr : a % 2 ^ n < 2 ^ n := Nat.mod_lt _ hpos
  rw [ROUNDUP_eq]
  by_cases h : a % 2 ^ n = 0
  · rw [if_neg (not_not_intro h)]
    refine ⟨Nat.dvd_of_mod_eq_zero h, Nat.le_refl _, fun m _ hm => hm, fun _ => rfl, ?_⟩
    intro hne
    exact absurd h hne
  · rw [if_pos h]
    have hexp : 2 ^ n * (a / 2 ^ n + 1) = 2 ^ n * (a / 2 ^ n) + 2 ^ n := by
      rw [Nat.mul_add, Nat.mul_one]
    refine ⟨Nat.dvd_mul_right _ _, by omega, ?_, fun h0 => absurd h0 h, fun _ => ?_⟩
    · rintro m ⟨k, rfl⟩ hle
      apply Nat.mul_le_mul_left
      have hlt : 2 ^ n * (a / 2 ^ n) < 2 ^ n * k := by omega
      have := Nat.lt_of_mul_lt_mul_left hlt
      omega
    · exact ⟨by omega, by omega, Nat.mul_mod_right _ _⟩

end RtTable
